import Mathlib

/-!
Verification of the BFF HTTP front-end server core (C sources) against its
natural-language specification.  The C code is shallowly embedded: bytes are
`Nat` values (0..255), buffers are `List Nat`, strings handled by the route
dispatcher are Lean `String`s, and the stateful worker loops become explicit
state-passing functions.  Every definition is translated from the C source
files (`connection.h`, `connection.c`, `simd_utils.h`, `timer.h`,
`worker.c` = src/unnamed/part_001, `timer.c` = src/unnamed/part_000) except
where the repository's own code is missing from the source tree (the
`http_parser` library and the `parser_settings` callback table definition);
those places are modelled from the spec and marked as such.
-/

namespace BFF

/-! ## Basic byte utilities -/

/-- Convert a Lean string to its list of byte values (ASCII). -/
def bytes (s : String) : List Nat := s.toList.map Char.toNat

/-- `BUFFER_SIZE` from connection.h line 9. -/
def BUFFER_SIZE : Nat := 4096

/-- `URL_MAX_LEN` from connection.h line 10. -/
def URL_MAX_LEN : Nat := 256

/-- `MAX_REQUEST_SIZE` from worker.c line 18 (same value in worker_optimized). -/
def MAX_REQUEST_SIZE : Nat := 8192

/-- `REQUEST_TIMEOUT_MS` from worker.c line 15. -/
def REQUEST_TIMEOUT_MS : Nat := 5000

/-- `KEEP_ALIVE_TIMEOUT_MS` from worker.c line 16. -/
def KEEP_ALIVE_TIMEOUT_MS : Nat := 10000

/-! ## simd_utils.h: chunk validator and header-end scan

`simd_validate_url_chars` (simd_utils.h lines 140-147, portable fallback;
the SSE4.2 variant at lines 49-102 implements the same predicate): a byte
fails when it is outside the printable ASCII range 0x20..0x7E or is one of
space, tab, LF, CR.  In C the `char` is signed, so bytes ≥ 0x80 appear
negative and fail the `c < 0x20` test; on `Nat` byte values they fail the
`c > 0x7E` test instead — the accepted set is identical. -/

def simd_validate_url_chars (chunk : List Nat) : Bool :=
  chunk.all fun c =>
    !(c < 0x20 || c > 0x7E || c == 0x20 || c == 0x09 || c == 0x0A || c == 0x0D)

/-- `simd_find_header_end` (simd_utils.h lines 149-157, portable fallback):
index of the first position whose four bytes are `\r\n\r\n`, scanning left
to right; `none` when no window of four matches.  (The C fallback's loop
bound `i < len - 3` underflows for `len < 3`, reading out of bounds; the
callers only reach it with at least one byte buffered and the in-bounds
behaviour is the first-match scan modelled here.) -/
def simd_find_header_end : List Nat → Option Nat
  | x :: y :: z :: w :: rest =>
      if x == 13 && y == 10 && z == 13 && w == 10 then some 0
      else (simd_find_header_end (y :: z :: w :: rest)).map (· + 1)
  | _ => none

/-! ## http_handler.c (second half of src/timer.h): URL validation -/

/-- `isalnum` over ASCII byte values (C library behaviour in the "C" locale,
as used by `is_valid_url_char`). -/
def isalnum (c : Nat) : Bool :=
  (48 ≤ c && c ≤ 57) || (65 ≤ c && c ≤ 90) || (97 ≤ c && c ≤ 122)

/-- `is_valid_url_char` (http_handler.c lines 66-68):
alphanumeric or one of `/ - _ . ? = &`. -/
def is_valid_url_char (c : Nat) : Bool :=
  isalnum c || c == 47 || c == 45 || c == 95 || c == 46 || c == 63 ||
    c == 61 || c == 38

/-- The bytes a C `strstr` scans: everything before the first NUL. -/
def takeUntilNul (mem : List Nat) : List Nat := mem.takeWhile (· ≠ 0)

/-- Does the two-byte pattern `a b` occur in the list (C `strstr` with a
two-character needle, restricted to the scanned region)? -/
def hasSub2 (a b : Nat) : List Nat → Bool
  | x :: y :: rest => (x == a && y == b) || hasSub2 a b (y :: rest)
  | _ => false

/-- `validate_url` (http_handler.c lines 70-83), applied to the memory
starting at the `url` pointer.  `mem` is the byte content of that memory
(the URL bytes followed by whatever the buffer holds next), `len` the length
argument.  The length, leading-slash and character-class checks inspect only
the first `len` bytes, but the two `strstr` calls scan up to the first NUL
byte, which in the real caller lies beyond `len`. -/
def validate_url (mem : List Nat) (len : Nat) : Bool :=
  if len == 0 || URL_MAX_LEN ≤ len then false
  else if mem.headD 0 != 47 then false
  else if !((mem.take len).all is_valid_url_char) then false
  else if hasSub2 46 46 (takeUntilNul mem) then false
  else if hasSub2 47 47 (takeUntilNul mem) then false
  else true

/-- `on_url_callback` (http_handler.c lines 118-135): rejects (`none`) when
the length reaches `URL_MAX_LEN` or `validate_url` fails; otherwise copies
at most `URL_MAX_LEN - 1` bytes of the target into the connection. -/
def on_url_callback (mem : List Nat) (len : Nat) : Option (List Nat) :=
  if URL_MAX_LEN ≤ len then none
  else if !validate_url mem len then none
  else some (mem.take (min len (URL_MAX_LEN - 1)))

/-! ## http_handler.c: route table and request dispatcher -/

/-- The static JSON bodies (http_handler.c lines 109-115). -/
def bonuses_json : String := "\x7b\"bonuses\":[10,20,30]\x7d"

def settings_json : String := "\x7b\"settings\":\x7b\"theme\":\"dark\"\x7d\x7d"

def games_json : String := "\x7b\"games\":[\"chess\",\"poker\"]\x7d"

def health_json : String := "\x7b\"status\":\"OK\"\x7d"

def not_found_json : String := "\x7b\"error\":\"Not Found\"\x7d"

def bad_request_json : String := "\x7b\"error\":\"Bad Request\"\x7d"

def method_not_allowed_json : String := "\x7b\"error\":\"Method Not Allowed\"\x7d"

/-- The route table built by `routes_init` (http_handler.c lines 159-173):
exact, case-sensitive string keys. -/
def routes : List (String × String) :=
  [("/bonuses", bonuses_json), ("/settings", settings_json),
   ("/games", games_json), ("/health", health_json)]

/-- HTTP request methods as far as the dispatcher distinguishes them
(`conn->parser.method != HTTP_GET`, http_handler.c line 207). -/
inductive Method where
  | GET
  | other
  deriving DecidableEq, Repr

/-- Connection FSM states (connection.h lines 13-19). -/
inductive CState where
  | FREE
  | READING
  | WRITING
  | KEEP_ALIVE
  | CLOSING
  deriving DecidableEq, Repr

/-- The `Connection: ...` header fragment chosen by the dispatcher
(http_handler.c lines 231-236). -/
def keepAliveHdr (ka : Bool) : String :=
  if ka then "Connection: keep-alive\r\nKeep-Alive: timeout=10\r\n"
  else "Connection: close\r\n"

/-- The response-header block formatted by the dispatcher's `snprintf`
(http_handler.c lines 239-248), before the 512-byte overflow check. -/
def formatHeaders (status : Nat) (text : String) (clen : Nat) (ka : Bool) :
    String :=
  "HTTP/1.1 " ++ toString status ++ " " ++ text ++ "\r\n" ++
  "Content-Type: application/json\r\n" ++
  "Content-Length: " ++ toString clen ++ "\r\n" ++
  "Server: BFF/1.0\r\n" ++
  "X-Content-Type-Options: nosniff\r\n" ++
  "X-Frame-Options: DENY\r\n" ++
  keepAliveHdr ka ++ "\r\n"

/-- The canned 500 header block (http_handler.c lines 256-262). -/
def formatHeaders500 (clen : Nat) : String :=
  "HTTP/1.1 500 Internal Server Error\r\n" ++
  "Content-Type: application/json\r\n" ++
  "Content-Length: " ++ toString clen ++ "\r\n" ++
  "Connection: close\r\n" ++ "\r\n"

/-- Outcome of `handle_request_and_prepare_response`: the connection fields
it writes (status and body are also recorded for statements about them). -/
structure Response where
  status : Nat
  body : String
  keepAlive : Bool
  headers : String
  state : CState
  bytesSent : Nat
  deriving DecidableEq, Repr

/-- The branch structure of `handle_request_and_prepare_response`
(http_handler.c lines 186-220) choosing (status, status text, body,
keep-alive): the target is copied (`strncpy` keeps at most
`URL_MAX_LEN - 1` characters) and cut at the first `?`; an empty or
non-`/`-prefixed remainder yields 400; a non-GET method yields 405; a
route miss yields 404 — each of those disables keep-alive. -/
def dispatchSelect (url : String) (method : Method) (keepAlive : Bool) :
    Nat × String × String × Bool :=
  let urlCopy : String := ⟨url.toList.take (URL_MAX_LEN - 1)⟩
  let routed : String := ⟨urlCopy.toList.takeWhile (· ≠ '?')⟩
  if routed.toList = [] ∨ routed.toList.headD ' ' ≠ '/' then
    (400, "Bad Request", bad_request_json, false)
  else if method ≠ Method.GET then
    (405, "Method Not Allowed", method_not_allowed_json, false)
  else
    match routes.lookup routed with
    | some b => (200, "OK", b, keepAlive)
    | none => (404, "Not Found", not_found_json, false)

/-- `handle_request_and_prepare_response` (http_handler.c lines 181-273).
Inputs are the connection fields it reads: the parsed target `url`
(`conn->url`), the parser method, and the keep-alive flag derived from the
headers.  Headers are formatted into the 512-byte scratch, falling back to
the canned 500 response on overflow; the scatter list is set, `bytes_sent`
reset to 0, and the state moved to WRITING. -/
def handle_request_and_prepare_response (url : String) (method : Method)
    (keepAlive : Bool) : Response :=
  let sel := dispatchSelect url method keepAlive
  let hdr := formatHeaders sel.1 sel.2.1 sel.2.2.1.length sel.2.2.2
  if 512 ≤ hdr.length then
    let body500 := "\x7b\"error\":\"Internal Server Error\"\x7d"
    { status := 500, body := body500, keepAlive := false,
      headers := formatHeaders500 body500.length,
      state := CState.WRITING, bytesSent := 0 }
  else
    { status := sel.1, body := sel.2.2.1, keepAlive := sel.2.2.2,
      headers := hdr, state := CState.WRITING, bytesSent := 0 }

/-! ## worker.c: do_write (lines 269-338) and worker_optimized.c:
do_write_optimized (connection.h lines 468-550)

Only the lengths of the two scatter segments and the cumulative
`bytes_sent` counter matter to the size accounting, so the write state
carries those.  Each `writev` call is an external event: it either returns
`EAGAIN` (suspending the loop) or transfers some number of bytes, which the
kernel guarantees is at most the total length of the submitted iovec. -/

/-- Write-phase state: the two segment lengths set by the dispatcher
(`conn->response_iov[0].iov_len`, `conn->response_iov[1].iov_len`) and
`conn->bytes_sent`. -/
structure WState where
  iov0 : Nat
  iov1 : Nat
  sent : Nat
  deriving DecidableEq, Repr

/-- `total_len` (worker.c line 271). -/
def WState.total (s : WState) : Nat := s.iov0 + s.iov1

/-- Total length of the adjusted iovec that `do_write` submits on one
iteration (worker.c lines 284-300): if the offset is still inside the
header segment the suffix of segment 0 plus all of segment 1 is submitted,
otherwise the unsent suffix of the body segment.  In both branches the sum
of the submitted lengths is `total - sent` (for `sent ≤ total`, the only
region the loop operates in; C size_t arithmetic and Nat truncated
subtraction agree there).  `do_write_optimized` (connection.h lines
481-503) submits the same totals, merely dropping an empty second entry. -/
def adjustedLen (s : WState) : Nat :=
  if s.sent < s.iov0 then (s.iov0 - s.sent) + s.iov1
  else s.iov1 - (s.sent - s.iov0)

/-- One successful `writev` iteration: `conn->bytes_sent += nwritten`
(worker.c line 314; connection.h line 519). -/
def writeStep (s : WState) (nwritten : Nat) : WState :=
  { s with sent := s.sent + nwritten }

/-- A sequence of `writev` return values driving the `do_write` loop
(`none` = EAGAIN, which arms write-readiness and returns; a later readiness
event re-enters the same loop, modelled by running a further list). -/
def runWrite (s : WState) : List (Option Nat) → WState
  | [] => s
  | none :: _ => s
  | some n :: rest =>
      if s.sent < s.total then runWrite (writeStep s n) rest else s

/-- The kernel contract for the results fed to `runWrite`: every successful
`writev` returns at most the number of bytes submitted in that iteration's
adjusted iovec. -/
def validWrites (s : WState) : List (Option Nat) → Bool
  | [] => true
  | none :: _ => true
  | some n :: rest =>
      if s.sent < s.total then
        decide (n ≤ adjustedLen s) && validWrites (writeStep s n) rest
      else true

/-! ## Timer ownership per connection (worker.c)

A single connection's life through the worker is abstracted to the pair
(FSM state, number of live timer-heap entries referencing it).  Each event
below is one code path of worker.c; the timer operations it performs are
exactly the `timer_heap_remove` / `timer_heap_add` calls on that path
(`timer_heap_add` is assumed to succeed; a failed add would only lower the
count). -/

/-- Connection-level events of worker.c. -/
inductive ConnEvent where
  /-- `handle_new_connection` (lines 116-139): acquire from pool, state ←
  READING, register, `timer_heap_add` request timer. -/
  | accept
  /-- `do_read` entry + headers still incomplete (lines 168-171, 252-259):
  state ← READING, `timer_heap_remove`, `timer_heap_add`, re-arm EPOLLIN. -/
  | readPartial
  /-- `do_read` entry + headers complete (lines 168-171, 260-265):
  re-arm timer, then `timer_heap_remove`, dispatch
  (`handle_request_and_prepare_response` sets state ← WRITING), `do_write`
  hits EAGAIN on the first `writev` (lines 302-308): arm EPOLLOUT, return. -/
  | readCompleteThenEagain
  /-- EPOLLOUT event, `do_write` again hits EAGAIN (lines 302-308). -/
  | writeEagain
  /-- `do_write` drains fully with keep-alive set (lines 325-334): state ←
  KEEP_ALIVE, `timer_heap_add` keep-alive timer. -/
  | writeDoneKeepAlive
  /-- `do_write` drains fully with keep-alive clear (lines 335-337):
  `close_connection_from_worker` (lines 340-349): `timer_heap_remove`,
  `connection_release` (state ← FREE). -/
  | writeDoneClose
  /-- `close_connection_from_worker` from any error or timeout path. -/
  | close
  deriving DecidableEq, Repr

/-- (state, live timer entries) of one connection. -/
structure ConnTimers where
  state : CState
  timers : Nat
  deriving DecidableEq, Repr

/-- One worker.c event applied to a connection.  Events that cannot reach a
connection in the given state (the reactor drops events for FREE/CLOSING
connections, worker.c lines 144-146, and EPOLLIN/EPOLLOUT are dispatched
only in the matching states, lines 155-165) leave it unchanged. -/
def connStep (s : ConnTimers) (e : ConnEvent) : ConnTimers :=
  match e with
  | ConnEvent.accept =>
      if s.state = CState.FREE then
        { state := CState.READING, timers := s.timers + 1 }
      else s
  | ConnEvent.readPartial =>
      if s.state = CState.READING ∨ s.state = CState.KEEP_ALIVE then
        { state := CState.READING, timers := (s.timers - 1) + 1 }
      else s
  | ConnEvent.readCompleteThenEagain =>
      if s.state = CState.READING ∨ s.state = CState.KEEP_ALIVE then
        { state := CState.WRITING, timers := ((s.timers - 1) + 1) - 1 }
      else s
  | ConnEvent.writeEagain => s
  | ConnEvent.writeDoneKeepAlive =>
      if s.state = CState.WRITING then
        { state := CState.KEEP_ALIVE, timers := s.timers + 1 }
      else s
  | ConnEvent.writeDoneClose =>
      if s.state = CState.WRITING then
        { state := CState.FREE, timers := s.timers - 1 }
      else s
  | ConnEvent.close =>
      if s.state ≠ CState.FREE then
        { state := CState.FREE, timers := s.timers - 1 }
      else s

/-- Run a trace of worker.c events from a state. -/
def connRun (s : ConnTimers) : List ConnEvent → ConnTimers
  | [] => s
  | e :: es => connRun (connStep s e) es

/-- A pooled connection before any accept. -/
def connInit : ConnTimers := { state := CState.FREE, timers := 0 }

/-! ## Request-timer re-arming across loop iterations (worker.c lines
64-82, 168-171; worker_optimized.c / connection.h lines 185-221, 399-402)

One connection observed through successive reactor iterations.  Each
iteration has a current monotonic time `now`; the loop first runs
`timer_heap_process_expired` (closing the connection if its deadline is
≤ now) and then dispatches events; a readable event for a connection in
READING or KEEP_ALIVE enters `do_read`, whose first two statements remove
the connection's timer entry (a no-op when there is none) and add a fresh
one with deadline `now + REQUEST_TIMEOUT_MS`.  Times are milliseconds (the
source's `timespec` pairs ordered lexicographically are order-isomorphic to
the millisecond counts used here). -/

/-- The connection as the request-timer logic sees it: its current
deadline and whether it has been closed by timer expiry. -/
structure RTConn where
  deadline : Nat
  closed : Bool
  deriving DecidableEq, Repr

/-- One reactor iteration at time `now`; `readEvt` says whether a readable
event for this connection is dispatched in this iteration.  Expiry
processing happens first (close when `deadline ≤ now`, timer.c lines
151-156); the `do_read` entered afterwards replaces the deadline by
`now + 5000` (worker.c lines 168-171). -/
def loopIter (s : RTConn) (now : Nat) (readEvt : Bool) : RTConn :=
  if s.closed then s
  else if s.deadline ≤ now then { s with closed := true }
  else if readEvt then { s with deadline := now + REQUEST_TIMEOUT_MS }
  else s

/-- Run the reactor over a list of (time, readable?) iterations. -/
def runLoop (s : RTConn) : List (Nat × Bool) → RTConn
  | [] => s
  | (now, r) :: rest => runLoop (loopIter s now r) rest

/-- The arming time the connection's deadline was last derived from: the
accept (or previous re-arm) time `a` updated by every iteration that
delivers a readable event. -/
def lastArm (a : Nat) : List (Nat × Bool) → Nat
  | [] => a
  | (now, r) :: rest => lastArm (if r then now else a) rest

/-! ## timer.c: `timer_heap_process_expired` (lines 147-167)

The loop pops nothing itself: it relies on `close_connection_from_worker`
(worker.c lines 340-349) removing the expired top entry.  Heap nodes carry
their connection's state and descriptor inline (each live connection owns
at most one node).  The heap array is kept as a list in heap order; removal
of the top moves the last node to the front and sifts it down with the
(sec, nsec) comparison of the source (here a single `Nat` deadline, which
the lexicographic timespec order collapses to). -/

/-- A timer-heap node together with the connection fields
`timer_heap_process_expired` and `close_connection_from_worker` read. -/
structure TNode where
  expiry : Nat
  connState : CState
  connFd : Int
  deriving DecidableEq, Repr

instance : Inhabited TNode := ⟨⟨0, CState.FREE, -1⟩⟩

/-- `sift_down` (timer.c lines 199-224) on a list in heap-array order,
recursing on fuel bounded by the list length. -/
def siftDown (fuel : Nat) (h : List TNode) (i : Nat) : List TNode :=
  match fuel with
  | 0 => h
  | fuel + 1 =>
      let l := 2 * i + 1
      let r := 2 * i + 2
      let sm1 := if l < h.length &&
          (h.getD l default).expiry < (h.getD i default).expiry then l else i
      let sm := if r < h.length &&
          (h.getD r default).expiry < (h.getD sm1 default).expiry then r else sm1
      if sm ≠ i then
        let hi := h.getD i default
        let hsm := h.getD sm default
        siftDown fuel ((h.set i hsm).set sm hi) sm
      else h

/-- `timer_heap_remove` of the root entry (timer.c lines 105-133): the last
node replaces the root and is sifted down. -/
def removeTop (h : List TNode) : List TNode :=
  match h with
  | [] => []
  | [_] => []
  | _ :: _ =>
      let rest := (h.getLast! ) :: (h.drop 1).dropLast
      siftDown rest.length rest 0

/-- State of `timer_heap_process_expired`: the heap and the current time
fetched once at entry (timer.c lines 148-149). -/
structure PEState where
  heap : List TNode
  now : Nat
  deriving DecidableEq, Repr

/-- One iteration of the `while (th->size > 0)` body (timer.c lines
151-166), assuming the loop guard held and the top had expired: if the
top's connection is neither FREE nor CLOSING, its state is set to CLOSING
and `close_connection_from_worker` runs — which returns immediately when
`conn->fd == -1` (worker.c line 341) and otherwise closes the descriptor,
removes the heap entry and releases the connection (state FREE, fd -1).
When the connection is already FREE or CLOSING nothing at all happens. -/
def peLoopBody (s : PEState) : PEState :=
  match s.heap with
  | [] => s
  | top :: _ =>
      if top.connState ≠ CState.FREE ∧ top.connState ≠ CState.CLOSING then
        if top.connFd = -1 then
          { s with heap :=
              { top with connState := CState.CLOSING } :: s.heap.tail }
        else
          { s with heap := removeTop s.heap }
      else s

/-- `timer_heap_process_expired` with fuel: `some` = the while loop reached
its exit (empty heap or unexpired top) within `fuel` iterations, `none` =
it was still running. -/
def processExpiredFuel : Nat → PEState → Option PEState
  | 0, _ => none
  | fuel + 1, s =>
      match s.heap with
      | [] => some s
      | top :: _ =>
          if s.now < top.expiry then some s
          else processExpiredFuel fuel (peLoopBody s)

/-! ## worker.c: `handle_new_connection` (lines 91-141) resource-exhaustion
handling; `timer_heap_add` (timer.c lines 80-103) failure cases.

Only the decision structure matters: whether the accepted descriptor ends
up closed, and whether the registered connection holds a timer. -/

/-- `timer_heap_add` success (timer.c lines 80-84): fails when the heap is
at capacity or the node pool is empty. -/
def timer_heap_add_ok (size capacity : Nat) (nodeAvail : Bool) : Bool :=
  if capacity ≤ size then false
  else if !nodeAvail then false
  else true

/-- What one accepted descriptor ends as. -/
inductive AcceptOutcome where
  /-- `connection_get` returned NULL: the descriptor is closed and dropped
  (worker.c lines 117-121). -/
  | droppedNoConn
  /-- `epoll_ctl` failed: connection released, descriptor closed
  (worker.c lines 132-137). -/
  | droppedEpollFail
  /-- The connection is registered with epoll and left open; the flag says
  whether it holds a timer entry.  worker.c line 139 discards the return
  value of `timer_heap_add`, so the connection stays registered and open
  either way (the same holds in `handle_new_connections_batch`,
  connection.h line 307). -/
  | registered (hasTimer : Bool)
  deriving DecidableEq, Repr

/-- The per-descriptor tail of `handle_new_connection`. -/
def handle_new_connection_step (poolAvail epollOk : Bool)
    (heapSize heapCap : Nat) (nodeAvail : Bool) : AcceptOutcome :=
  if !poolAvail then AcceptOutcome.droppedNoConn
  else if !epollOk then AcceptOutcome.droppedEpollFail
  else AcceptOutcome.registered (timer_heap_add_ok heapSize heapCap nodeAvail)

/-! ## worker.c: `do_read` (lines 168-266) — request-size accounting

The connection's read buffer accumulates header bytes across events; the
model keeps the buffer contents, a closed flag and a dispatched flag.  The
incoming TCP stream is a byte list from which each event's `recv` loop
takes up to the free buffer space (edge-triggered: it drains until the
buffer is full or the stream is — a further `recv` then yields EAGAIN).
The `http_parser_execute` call and the `parser_settings` callback table are
not part of src/ (the parser is the external http-parser library and the
table's definition is absent); the completion signal is therefore modelled
from the spec. -/

/-- The repeated-character scan (worker.c lines 196-209): walking adjacent
pairs of the first 256 buffer bytes, a run counter increments on equality
and resets otherwise; the connection is closed as soon as the counter
exceeds 128. -/
def repeatScan : Nat → List Nat → Bool
  | cnt, x :: y :: rest =>
      if x == y then (128 < cnt + 1) || repeatScan (cnt + 1) (y :: rest)
      else repeatScan 0 (y :: rest)
  | _, _ => false

/-- Read-phase connection state: `conn->read_buf[0..bytes_read)`, plus
whether the connection was closed, and whether the request was handed to
the dispatcher (state left READING). -/
structure RState where
  buf : List Nat
  closed : Bool
  dispatched : Bool
  deriving DecidableEq, Repr

/-- Modelled from the spec: the missing `http_parser_execute` /
`parser_settings` combination.  Spec §4.3/§4.5: the parser consumes header
bytes incrementally and signals headers-complete exactly when the
`\r\n\r\n` terminator is present in the fed bytes; benign header bytes (as
in the inputs below) produce no parse error while incomplete.
`do_read` then dispatches when the connection has left READING and
otherwise re-arms read-readiness. -/
def parserHeadersComplete (buf : List Nat) : Bool :=
  (simd_find_header_end buf).isSome

/-- One `do_read` invocation (worker.c lines 168-266) for a connection that
stays connected (every `recv` past the available bytes yields EAGAIN; a
peer close or hard error would also close the connection and only make
rejection more likely).  Returns the new state and how many stream bytes
were consumed.  The checks mirror the source order: the `space_left == 0`
close (line 181), the `bytes_read > MAX_REQUEST_SIZE` close (line 189), the
repeated-character close (lines 195-210, evaluated on the final buffer —
the intermediate per-`recv` evaluations inspect prefixes of the same first
256 bytes and close in exactly the same cases), the parse/completion step,
and the `bytes_read >= MAX_REQUEST_SIZE` close (line 253). -/
def do_read_event (s : RState) (avail : List Nat) : RState × Nat :=
  if s.closed || s.dispatched then (s, 0)
  else if BUFFER_SIZE - s.buf.length == 0 then
    ({ s with closed := true }, 0)
  else
    let took := avail.take (BUFFER_SIZE - s.buf.length)
    let buf' := s.buf ++ took
    if MAX_REQUEST_SIZE < buf'.length then
      ({ buf := buf', closed := true, dispatched := false }, took.length)
    else if 1024 < buf'.length && repeatScan 0 (buf'.take 256) then
      ({ buf := buf', closed := true, dispatched := false }, took.length)
    else if parserHeadersComplete buf' then
      ({ buf := buf', closed := false, dispatched := true }, took.length)
    else if MAX_REQUEST_SIZE ≤ buf'.length then
      ({ buf := buf', closed := true, dispatched := false }, took.length)
    else
      ({ buf := buf', closed := false, dispatched := false }, took.length)

/-- Successive read-readiness events (one `do_read` per event) against the
remaining stream. -/
def runRead : RState → List Nat → Nat → RState
  | s, _, 0 => s
  | s, stream, events + 1 =>
      runRead (do_read_event s stream).1
        (stream.drop (do_read_event s stream).2) events

/-- A fresh connection's read state (`connection_get` zeroes
`bytes_read`). -/
def readInit : RState := { buf := [], closed := false, dispatched := false }

/-- `n` repetitions of the two bytes `a b` — filler that defeats the
repeated-character heuristic and contains no CR. -/
def abRep : Nat → List Nat
  | 0 => []
  | n + 1 => 97 :: 98 :: abRep n

/-- The 20-byte request prefix `GET / HTTP/1.1\r\nHa: ` shared by the
concrete header blocks below. -/
def reqPrefix : List Nat := bytes "GET / HTTP/1.1\r\nHa: "

/-- An 8192-byte header block ending in `\r\n\r\n`:
`GET / HTTP/1.1\r\nHa: ` (20 bytes) + 8168 filler bytes + `\r\n\r\n`. -/
def block8192 : List Nat := reqPrefix ++ abRep 4084 ++ [13, 10, 13, 10]

/-- The same shape at exactly `BUFFER_SIZE` = 4096 bytes. -/
def block4096 : List Nat := reqPrefix ++ abRep 2036 ++ [13, 10, 13, 10]

/-! ## Statement-side definitions taken from the spec's wording -/

/-- The spec's notion of a control character: the C0 range and DEL. -/
def isCtrlByte (b : Nat) : Bool := b < 0x20 || b == 0x7F

/-- Following the spec's words: the character class `[A-Za-z0-9/\-_.?=&]`
of permitted target bytes (to be compared with `is_valid_url_char`). -/
def targetSpecChar (c : Nat) : Bool :=
  (65 ≤ c && c ≤ 90) || (97 ≤ c && c ≤ 122) || (48 ≤ c && c ≤ 57) ||
  c == 47 || c == 45 || c == 95 || c == 46 || c == 63 || c == 61 || c == 38

/-- Following the spec's words, the claimed acceptance condition for a
target byte sequence: non-empty, at most 255 bytes, `/`-prefixed, only
permitted characters, containing neither `..` nor `//` (to be compared
with `validate_url`). -/
def targetSpecValid (S : List Nat) : Bool :=
  !S.isEmpty && S.length ≤ 255 && S.headD 0 == 47 &&
  S.all targetSpecChar && !hasSub2 46 46 S && !hasSub2 47 47 S

/-- A 255-byte target: `/` followed by 254 filler bytes. -/
def url255 : List Nat := 47 :: abRep 127

/-- The specification's "fast client" hypothesis over a reactor trace: at
every loop iteration, strictly less than `REQUEST_TIMEOUT_MS` has elapsed
since the last byte arrival (or, before the first arrival, since the timer
was armed at accept time `a`). -/
def fastClient : Nat → List (Nat × Bool) → Bool
  | _, [] => true
  | a, (now, r) :: rest =>
      decide (now < a + REQUEST_TIMEOUT_MS) &&
        fastClient (if r then now else a) rest

/-- An expired heap entry whose connection is already CLOSING. -/
def stuckClosing : PEState :=
  { heap := [{ expiry := 5, connState := CState.CLOSING, connFd := 3 }],
    now := 10 }

/-- An expired heap entry whose connection is READING but has
descriptor -1. -/
def stuckNoFd : PEState :=
  { heap := [{ expiry := 5, connState := CState.READING, connFd := -1 }],
    now := 10 }

/-! ## Auxiliary lemmas -/

set_option maxRecDepth 40000

theorem abRep_length (n : Nat) : (abRep n).length = 2 * n := by
  induction n with
  | zero => rfl
  | succ n ih => simp [abRep, ih]; omega

theorem abRep_add (m n : Nat) : abRep (m + n) = abRep m ++ abRep n := by
  induction m with
  | zero => simp [abRep]
  | succ m ih => simp [abRep, Nat.succ_add, ih]

theorem abRep_ne13 (n : Nat) : ∀ b ∈ abRep n, b ≠ 13 := by
  induction n with
  | zero => intro b hb; simp [abRep] at hb
  | succ n ih =>
      intro b hb
      simp only [abRep, List.mem_cons] at hb
      rcases hb with rfl | rfl | h
      · decide
      · decide
      · exact ih b h

theorem fhe_none_of_no13 (l : List Nat) (h : ∀ b ∈ l, b ≠ 13) :
    simd_find_header_end l = none := by
  induction l with
  | nil => rfl
  | cons x rest ih =>
      cases rest with
      | nil => rfl
      | cons y rest2 =>
          cases rest2 with
          | nil => rfl
          | cons z rest3 =>
              cases rest3 with
              | nil => rfl
              | cons w rest4 =>
                  have hx : x ≠ 13 := h x (by simp)
                  have hcond :
                      (x == 13 && y == 10 && z == 13 && w == 10) = false := by
                    simp [hx]
                  rw [simd_find_header_end, hcond]
                  simp only [Bool.false_eq_true, if_false]
                  rw [ih (by intro b hb; exact h b (List.mem_cons_of_mem x hb))]
                  rfl

theorem fhe_isSome_of_suffix (l : List Nat)
    (h : [13, 10, 13, 10] <:+ l) : (simd_find_header_end l).isSome = true := by
  induction l with
  | nil => simp at h
  | cons x rest ih =>
      cases rest with
      | nil => have := h.length_le; simp at this
      | cons y r2 =>
          cases r2 with
          | nil => have := h.length_le; simp at this
          | cons z r3 =>
              cases r3 with
              | nil => have := h.length_le; simp at this
              | cons w r4 =>
                  rw [simd_find_header_end]
                  by_cases hc : (x == 13 && y == 10 && z == 13 && w == 10) = true
                  · simp [hc]
                  · rw [List.suffix_cons_iff] at h
                    rcases h with heq | hsuf
                    · exfalso
                      have hx : x = 13 ∧ y = 10 ∧ z = 13 ∧ w = 10 := by
                        injection heq with h1 h2
                        injection h2 with h1b h2b
                        injection h2b with h1c h2c
                        injection h2c with h1d h2d
                        exact ⟨h1.symm, h1b.symm, h1c.symm, h1d.symm⟩
                      simp [hx.1, hx.2.1, hx.2.2.1, hx.2.2.2] at hc
                    · have hrec := ih hsuf
                      simp only [hc, if_false, Bool.false_eq_true]
                      cases hopt : simd_find_header_end (y :: z :: w :: r4) with
                      | none => rw [hopt] at hrec; simp at hrec
                      | some p => simp

/-! ## C9: unknown route yields 404 with Connection: close -/

/-- C9: for every parsed GET request whose target — truncated at the first
`?` — is not a key of the route table (the target being `/`-prefixed and,
as every parsed target is, at most 255 bytes), the dispatcher prepares a
404 response with body `{"error":"Not Found"}`, a `Content-Length` equal to
that body's length (21), keep-alive disabled and a `Connection: close`
header, regardless of the keep-alive preference the client expressed. -/
theorem C9_unknown_route_404 (url : String) (ka : Bool)
    (hlen : url.toList.length ≤ 255)
    (hhead : url.toList.headD ' ' = '/')
    (hmiss : routes.lookup ⟨url.toList.takeWhile (· ≠ '?')⟩ = none) :
    handle_request_and_prepare_response url Method.GET ka =
      { status := 404, body := not_found_json, keepAlive := false,
        headers := formatHeaders 404 "Not Found" not_found_json.length false,
        state := CState.WRITING, bytesSent := 0 } ∧
    formatHeaders 404 "Not Found" not_found_json.length false =
      "HTTP/1.1 404 Not Found\r\nContent-Type: application/json\r\n" ++
        "Content-Length: 21\r\nServer: BFF/1.0\r\n" ++
        "X-Content-Type-Options: nosniff\r\nX-Frame-Options: DENY\r\n" ++
        "Connection: close\r\n\r\n" ∧
    not_found_json.length = 21 := by
  have hsel : dispatchSelect url Method.GET ka =
      (404, "Not Found", not_found_json, false) := by
    unfold dispatchSelect
    have htake : url.toList.take (URL_MAX_LEN - 1) = url.toList := by
      apply List.take_of_length_le
      simp only [URL_MAX_LEN]
      omega
    cases hu : url.toList with
    | nil => rw [hu] at hhead; simp at hhead
    | cons c rest =>
        rw [hu] at hhead htake hmiss
        simp only [List.headD_cons] at hhead
        subst hhead
        simp only [String.toList, htake, hu] at hmiss ⊢
        have hq : (('/' : Char) ≠ '?') = True := by simp
        simp only [List.takeWhile_cons, decide_eq_true_eq, hq, if_true,
          List.headD_cons] at hmiss ⊢
        rw [if_neg (by simp)]
        rw [if_neg (by simp)]
        rw [hmiss]
  refine ⟨?_, by decide, by decide⟩
  unfold handle_request_and_prepare_response
  rw [hsel]
  have hlen404 :
      ¬ (512 ≤
        (formatHeaders 404 "Not Found" not_found_json.length false).length) := by
    decide
  simp only [if_neg hlen404]

/-- C9 witness: `/nope` with client keep-alive requested. -/
theorem C9_unknown_route_404_witness :
    handle_request_and_prepare_response "/nope" Method.GET true =
      { status := 404, body := not_found_json, keepAlive := false,
        headers := formatHeaders 404 "Not Found" not_found_json.length false,
        state := CState.WRITING, bytesSent := 0 } :=
  (C9_unknown_route_404 "/nope" true (by decide) (by decide) (by decide)).1

/-! ## C7: bytes-sent never exceeds the scatter-list total -/

theorem adjustedLen_eq (s : WState) (h : s.sent ≤ s.total) :
    adjustedLen s = s.total - s.sent := by
  unfold adjustedLen WState.total
  split
  · omega
  · unfold WState.total at h; omega

/-- C7: in state Writing, `bytes_sent ≤ iov0.len + iov1.len` is an
invariant of the write loop: starting from any state satisfying the bound
(in particular the `bytes_sent = 0` state the dispatcher leaves behind) and
feeding any sequence of `writev` results — successes bounded by the
submitted adjusted iovec, or an EAGAIN that suspends until the next
write-readiness event — the bound still holds; since every intermediate
state is itself `runWrite` of a shorter result list, the bound holds at all
times, across EAGAIN suspension and resumption. -/
theorem C7_bytes_sent_bound (s : WState) (rs : List (Option Nat))
    (hs : s.sent ≤ s.total) (hv : validWrites s rs = true) :
    (runWrite s rs).sent ≤ (runWrite s rs).total := by
  induction rs generalizing s with
  | nil => exact hs
  | cons r rest ih =>
      cases r with
      | none => exact hs
      | some n =>
          unfold runWrite
          by_cases hlt : s.sent < s.total
          · simp only [hlt, if_pos]
            have hv' : n ≤ adjustedLen s ∧ validWrites (writeStep s n) rest = true := by
              unfold validWrites at hv
              simp only [hlt, if_pos, Bool.and_eq_true, decide_eq_true_eq] at hv
              exact hv
            apply ih
            · have := adjustedLen_eq s hs
              simp only [writeStep, WState.total] at *
              omega
            · exact hv'.2
          · simp only [hlt, if_neg, not_false_iff]
            exact hs

/-- C7 witness: a 121-byte response (100-byte headers, 21-byte body)
written as 50 bytes, an EAGAIN suspension, then the remaining 71. -/
theorem C7_bytes_sent_bound_witness :
    (⟨100, 21, 0⟩ : WState).sent ≤ (⟨100, 21, 0⟩ : WState).total ∧
    validWrites ⟨100, 21, 0⟩ [some 50, none, some 71] = true ∧
    (runWrite ⟨100, 21, 0⟩ [some 50, none, some 71]).sent ≤
      (runWrite ⟨100, 21, 0⟩ [some 50, none, some 71]).total :=
  ⟨by decide, by decide,
    C7_bytes_sent_bound ⟨100, 21, 0⟩ [some 50, none, some 71]
      (by decide) (by decide)⟩

/-! ## C2: what the chunk validator actually rejects -/

/-- C2 counterexample: the chunk `a b` contains no control character at
all, yet `simd_validate_url_chars` rejects it (so `do_read_optimized`
closes the connection on it, connection.h lines 426-429) — the validator
does not close "only when the bytes contain control characters".
Moreover the minimal request `GET / HTTP/1.1\r\nHost: x\r\n\r\n` itself
fails the chunk validation, so in the optimized read path it is closed
rather than parsed and dispatched. -/
theorem C2_counterexample :
    ((bytes "a b").all fun b => !isCtrlByte b) = true ∧
    simd_validate_url_chars (bytes "a b") = false ∧
    simd_validate_url_chars (bytes "GET / HTTP/1.1\r\nHost: x\r\n\r\n") =
      false := by
  decide

/-- C2 amended: the validator accepts a chunk exactly when every byte lies
in 0x21..0x7E — it rejects spaces (not control characters) as well as CR
and LF, so every well-formed request line fails it; in particular the
minimal request fails chunk validation in `do_read_optimized` and the
connection is closed there rather than dispatched.  When dispatch is
reached (the plain worker's read path runs no chunk validator), the
minimal request's target `/` is not a registered route and the dispatcher
prepares the 404 Not-Found response with keep-alive disabled. -/
theorem C2_amended :
    (∀ chunk : List Nat,
      simd_validate_url_chars chunk = true ↔
        ∀ b ∈ chunk, 0x21 ≤ b ∧ b ≤ 0x7E) ∧
    simd_validate_url_chars (bytes "GET / HTTP/1.1\r\nHost: x\r\n\r\n") =
      false ∧
    (handle_request_and_prepare_response "/" Method.GET true).status = 404 ∧
    (handle_request_and_prepare_response "/" Method.GET true).body =
      not_found_json ∧
    (handle_request_and_prepare_response "/" Method.GET true).keepAlive =
      false := by
  refine ⟨?_, by decide, by decide, by decide, by decide⟩
  intro chunk
  simp only [simd_validate_url_chars, List.all_eq_true]
  constructor
  · intro h b hb
    have := h b hb
    simp only [Bool.not_eq_true', Bool.or_eq_false_iff, decide_eq_false_iff_not,
      Nat.not_lt, beq_eq_false_iff_ne, ne_eq] at this
    omega
  · intro h b hb
    have := h b hb
    simp only [Bool.not_eq_true', Bool.or_eq_false_iff, decide_eq_false_iff_not,
      Nat.not_lt, beq_eq_false_iff_ne, ne_eq]
    omega

/-! ## C6: ignored timer-allocation failure at accept time -/

/-- C6: when the connection pool is exhausted the accepted descriptor is
indeed closed and dropped, but when `timer_heap_add` fails (heap at
capacity, here 65536 = the worker's heap size, or node pool empty) the
caller ignores the failure: the connection remains registered and open
with no timer entry, instead of being closed as the claim requires. -/
theorem C6_ignored_timer_failure :
    handle_new_connection_step false true 0 65536 true =
      AcceptOutcome.droppedNoConn ∧
    handle_new_connection_step true true 65536 65536 true =
      AcceptOutcome.registered false ∧
    handle_new_connection_step true true 0 65536 false =
      AcceptOutcome.registered false := by
  decide

/-! ## C4: `timer_heap_process_expired` spins on FREE/CLOSING/fd=-1 -/

theorem processExpired_stuck_closing (e : Nat) (fd : Int) (now : Nat)
    (h : e ≤ now) : ∀ fuel,
    processExpiredFuel fuel
      { heap := [{ expiry := e, connState := CState.CLOSING, connFd := fd }],
        now := now } = none := by
  intro fuel
  induction fuel with
  | zero => rfl
  | succ n ih =>
      rw [processExpiredFuel]
      simp only [Nat.not_lt.mpr h, if_false]
      have hbody : peLoopBody
          { heap := [{ expiry := e, connState := CState.CLOSING, connFd := fd }],
            now := now } =
          { heap := [{ expiry := e, connState := CState.CLOSING, connFd := fd }],
            now := now } := by
        simp [peLoopBody]
      rw [hbody]
      exact ih

/-- C4: `timer_heap_process_expired` does not terminate — let alone pop
every expired entry — when the top expired entry's connection is already
CLOSING (or FREE), or has descriptor -1: the loop body then removes
nothing (`close_connection_from_worker` is either not called, or returns
immediately on `fd == -1`), the guard stays true, and no amount of fuel
ever reaches the loop exit. -/
theorem C4_process_expired_diverges :
    (∀ fuel, processExpiredFuel fuel stuckClosing = none) ∧
    (∀ fuel, processExpiredFuel fuel stuckNoFd = none) := by
  constructor
  · exact fun fuel => processExpired_stuck_closing 5 3 10 (by omega) fuel
  · intro fuel
    cases fuel with
    | zero => rfl
    | succ n =>
        rw [processExpiredFuel]
        have hbody : peLoopBody stuckNoFd =
            { heap := [{ expiry := 5, connState := CState.CLOSING,
                         connFd := -1 }], now := 10 } := by
          simp [peLoopBody, stuckNoFd]
        simp only [stuckNoFd] at hbody ⊢
        rw [hbody]
        exact processExpired_stuck_closing 5 (-1) 10 (by omega) n

/-! ## C5: timer ownership of a Writing connection -/

/-- C5 counterexample: after accept, a read that completes the headers
(timer removed before dispatch, worker.c line 262) and a `writev` hitting
EAGAIN, the connection sits in state WRITING — non-Free, not mid-dispatch,
parked until the next write-readiness event — holding zero live timer
entries, not exactly one as claimed; a further EAGAIN leaves it so. -/
theorem C5_counterexample :
    (connRun connInit [ConnEvent.accept, ConnEvent.readCompleteThenEagain,
        ConnEvent.writeEagain]).state = CState.WRITING ∧
    ¬ (connRun connInit [ConnEvent.accept, ConnEvent.readCompleteThenEagain,
        ConnEvent.writeEagain]).timers = 1 := by
  decide

theorem connStep_inv (s : ConnTimers) (e : ConnEvent)
    (h1 : s.timers ≤ 1) (h2 : s.state = CState.FREE → s.timers = 0)
    (h3 : s.state = CState.WRITING → s.timers = 0) :
    (connStep s e).timers ≤ 1 ∧
    ((connStep s e).state = CState.FREE → (connStep s e).timers = 0) ∧
    ((connStep s e).state = CState.WRITING → (connStep s e).timers = 0) := by
  cases e with
  | accept =>
      simp only [connStep]
      split
      · next hc => have := h2 hc; exact ⟨by simp; omega, by simp, by simp⟩
      · exact ⟨h1, h2, h3⟩
  | readPartial =>
      simp only [connStep]
      split
      · exact ⟨by simp; omega, by simp, by simp⟩
      · exact ⟨h1, h2, h3⟩
  | readCompleteThenEagain =>
      simp only [connStep]
      split
      · exact ⟨by simp; omega, by simp, by simp; omega⟩
      · exact ⟨h1, h2, h3⟩
  | writeEagain => exact ⟨h1, h2, h3⟩
  | writeDoneKeepAlive =>
      simp only [connStep]
      split
      · next hc => have := h3 hc; exact ⟨by simp; omega, by simp, by simp⟩
      · exact ⟨h1, h2, h3⟩
  | writeDoneClose =>
      simp only [connStep]
      split
      · exact ⟨by simp; omega, by simp; omega, by simp⟩
      · exact ⟨h1, h2, h3⟩
  | close =>
      simp only [connStep]
      split
      · exact ⟨by simp; omega, by simp; omega, by simp⟩
      · exact ⟨h1, h2, h3⟩

/-- C5 amended: every connection holds at most one live timer at all
times, but a non-Free connection can hold zero timers well beyond a
transient dispatch window: for the whole Writing phase — from dispatch
through every EAGAIN suspension until the write drains — it holds no
timer entry (the request timer is removed before dispatch and a timer is
next added only on the transition to KeepAlive). -/
theorem C5_at_most_one_timer :
    (∀ es : List ConnEvent, (connRun connInit es).timers ≤ 1) ∧
    connRun connInit [ConnEvent.accept, ConnEvent.readCompleteThenEagain,
        ConnEvent.writeEagain] =
      { state := CState.WRITING, timers := 0 } := by
  constructor
  · have hgen : ∀ (es : List ConnEvent) (s : ConnTimers), s.timers ≤ 1 →
        (s.state = CState.FREE → s.timers = 0) →
        (s.state = CState.WRITING → s.timers = 0) →
        (connRun s es).timers ≤ 1 := by
      intro es
      induction es with
      | nil => intro s hs _ _; exact hs
      | cons e rest ih =>
          intro s hs h2 h3
          obtain ⟨a, b, c⟩ := connStep_inv s e hs h2 h3
          exact ih (connStep s e) a b c
    intro es
    exact hgen es connInit (by decide) (by decide) (by decide)
  · decide

/-! ## C10: the request deadline tracks the latest byte arrival -/

/-- C10: each readable event for a READING or KEEP_ALIVE connection makes
`do_read` remove whatever timer entry the connection holds and arm a fresh
5000 ms one, so the deadline becomes `now + 5000` at every byte arrival
(second conjunct); consequently a client that is never more than
5000 ms past its last arming when the loop looks — a client delivering
bytes more often than every 5 seconds — is never closed by the request
timer, however many iterations (and however much header data) the trace
spans (first conjunct). -/
theorem C10_rearm_per_event (a : Nat) (iters : List (Nat × Bool))
    (h : fastClient a iters = true) :
    (runLoop { deadline := a + REQUEST_TIMEOUT_MS, closed := false }
        iters).closed = false ∧
    (∀ (s : RTConn) (now : Nat), s.closed = false → now < s.deadline →
      (loopIter s now true).deadline = now + REQUEST_TIMEOUT_MS) := by
  constructor
  · induction iters generalizing a with
    | nil => rfl
    | cons it rest ih =>
        obtain ⟨now, r⟩ := it
        simp only [fastClient, Bool.and_eq_true, decide_eq_true_eq] at h
        obtain ⟨hlt, hrest⟩ := h
        rw [runLoop]
        have hiter : loopIter ⟨a + REQUEST_TIMEOUT_MS, false⟩ now r =
            ⟨(if r then now else a) + REQUEST_TIMEOUT_MS, false⟩ := by
          unfold loopIter
          simp only [Bool.false_eq_true, if_false]
          rw [if_neg (by simp only [REQUEST_TIMEOUT_MS] at hlt ⊢; omega)]
          cases r <;> simp
        rw [show ({ deadline := a + REQUEST_TIMEOUT_MS, closed := false } :
          RTConn) = ⟨a + REQUEST_TIMEOUT_MS, false⟩ from rfl, hiter]
        cases r with
        | false => exact ih a hrest
        | true => exact ih now hrest
  · intro s now hclosed hdl
    unfold loopIter
    simp [hclosed, Nat.not_le.mpr hdl]

/-- C10 witness: arming at time 0 and bytes arriving at 4999, 9998 and a
final quiet look at 14997 — each gap under 5000 ms — leave the connection
open, and a readable event at time 7 for a deadline-5000 connection re-arms
it to 5007. -/
theorem C10_rearm_per_event_witness :
    fastClient 0 [(4999, true), (9998, true), (14997, false)] = true ∧
    (runLoop { deadline := 0 + REQUEST_TIMEOUT_MS, closed := false }
        [(4999, true), (9998, true), (14997, false)]).closed = false ∧
    (loopIter { deadline := 5000, closed := false } 7 true).deadline =
      7 + REQUEST_TIMEOUT_MS :=
  ⟨by decide,
    (C10_rearm_per_event 0 [(4999, true), (9998, true), (14997, false)]
      (by decide)).1,
    (C10_rearm_per_event 0 [(4999, true), (9998, true), (14997, false)]
      (by decide)).2 { deadline := 5000, closed := false } 7 rfl
      (by decide)⟩

/-! ## C8: what `validate_url` accepts -/

theorem valid_char_eq (c : Nat) : is_valid_url_char c = targetSpecChar c := by
  unfold is_valid_url_char isalnum targetSpecChar
  rcases Nat.lt_or_ge c 128 with h | h
  · interval_cases c <;> rfl
  · have h57 : decide (c ≤ 57) = false := by simp; omega
    have h90 : decide (c ≤ 90) = false := by simp; omega
    have h122 : decide (c ≤ 122) = false := by simp; omega
    have hk : ∀ k : Nat, k < 128 → (c == k) = false := by
      intro k hkk
      simp only [beq_eq_false_iff_ne, ne_eq]
      omega
    simp [h57, h90, h122, hk 47 (by omega), hk 45 (by omega), hk 95 (by omega),
      hk 46 (by omega), hk 63 (by omega), hk 61 (by omega), hk 38 (by omega)]

theorem all_char_eq (S : List Nat) :
    S.all is_valid_url_char = S.all targetSpecChar := by
  induction S with
  | nil => rfl
  | cons c rest ih => simp [List.all_cons, valid_char_eq, ih]

theorem takeWhile_append_nul (S : List Nat) (h : ∀ b ∈ S, b ≠ 0) :
    takeUntilNul (S ++ [0]) = S := by
  unfold takeUntilNul
  induction S with
  | nil => simp
  | cons c rest ih =>
      have hc : c ≠ 0 := h c (by simp)
      simp only [List.cons_append, List.takeWhile_cons]
      rw [if_pos (by simpa using hc)]
      rw [ih (fun b hb => h b (List.mem_cons_of_mem c hb))]

theorem validate_url_spec (S : List Nat) :
    validate_url (S ++ [0]) S.length = targetSpecValid S := by
  unfold validate_url targetSpecValid
  by_cases h0 : S = []
  · subst h0; decide
  · have hne : (S.length == 0) = false := by
      simp [List.length_eq_zero, h0]
    by_cases h256 : URL_MAX_LEN ≤ S.length
    · rw [if_pos (by simp [hne, h256])]
      have : decide (S.length ≤ 255) = false := by
        simp only [URL_MAX_LEN] at h256
        simp
        omega
      simp [this]
    · rw [if_neg (by simp [hne]; simpa [URL_MAX_LEN] using h256)]
      have hlen255 : decide (S.length ≤ 255) = true := by
        simp only [URL_MAX_LEN] at h256
        simp
        omega
      obtain ⟨c, rest, rfl⟩ := List.exists_cons_of_ne_nil h0
      have hhead : (((c :: rest) ++ [0] : List Nat).headD 0) = c := by simp
      rw [hhead]
      by_cases hc47 : c = 47
      · subst hc47
        rw [if_neg (by simp)]
        have htake : ((47 :: rest) ++ [0] : List Nat).take (47 :: rest).length
            = 47 :: rest := List.take_left _ _
        rw [htake, all_char_eq]
        by_cases hall : (47 :: rest).all targetSpecChar = true
        · have hno0 : ∀ b ∈ (47 : Nat) :: rest, b ≠ 0 := by
            intro b hb
            have := (List.all_eq_true.mp hall) b hb
            intro h0b
            subst h0b
            simp [targetSpecChar] at this
          rw [takeWhile_append_nul _ hno0]
          rw [if_neg (by simp [hall])]
          simp only [List.isEmpty_cons, Bool.not_false, Bool.true_and, hlen255,
            Bool.true_and, List.headD_cons, beq_self_eq_true, hall]
          cases h46 : hasSub2 46 46 (47 :: rest) <;>
            cases h47 : hasSub2 47 47 (47 :: rest) <;> simp
        · rw [if_pos (by simp [hall])]
          simp only [Bool.not_eq_true] at hall
          simp [hall]
      · rw [if_pos (by simpa using hc47)]
        have : ((c : Nat) == 47) = false := by simpa using hc47
        simp [this]

/-- C8 counterexample: the two-byte target `/a` satisfies every condition
of the claim (non-empty, ≤ 255 bytes, `/`-prefixed, permitted characters,
no `..`, no `//`), yet `validate_url`, invoked as the parser callback
invokes it — on a pointer into the read buffer whose following bytes here
are ` //` before the terminating NUL — rejects it, because the two
`strstr` scans run to the first NUL rather than stopping at `len`.
Acceptance is therefore not determined by the URL byte sequence alone,
and the claimed "if and only if" fails. -/
theorem C8_counterexample :
    targetSpecValid [47, 97] = true ∧
    validate_url ([47, 97] ++ [32, 47, 47, 0]) 2 = false := by
  decide

/-- C8 amended: restricted to a memory that ends directly after the target
(`S ++ [0]`, as when the scanned region is exactly the URL), `validate_url`
accepts precisely the byte sequences the claim describes — non-empty,
≤ 255 bytes (255 accepted, 256 rejected: any call with `len ≥ 256`,
and likewise `on_url_callback`, rejects), `/`-prefixed, characters from
`[A-Za-z0-9/\-_.?=&]`, containing neither `..` nor `//`.  On the program's
actual call, whose memory continues past `len` into the rest of the read
buffer, the two substring scans additionally reject any target followed by
`..` or `//` anywhere before the next NUL byte. -/
theorem C8_validate_url_spec :
    (∀ S : List Nat, validate_url (S ++ [0]) S.length = targetSpecValid S) ∧
    validate_url (url255 ++ [0]) 255 = true ∧
    (∀ (mem : List Nat) (len : Nat), 256 ≤ len →
      validate_url mem len = false) ∧
    (∀ mem : List Nat, on_url_callback mem 256 = none) := by
  refine ⟨validate_url_spec, ?_, ?_, ?_⟩
  · have h255 : (url255 : List Nat).length = 255 := by
      simp [url255, abRep_length]
    rw [show (255 : Nat) = url255.length from h255.symm, validate_url_spec]
    decide
  · intro mem len hlen
    unfold validate_url
    rw [if_pos]
    simp only [URL_MAX_LEN, Bool.or_eq_true, decide_eq_true_eq]
    right
    exact hlen
  · intro mem
    unfold on_url_callback
    rw [if_pos (by simp [URL_MAX_LEN])]

/-- C8 witness: the boundary instances at a concrete memory. -/
theorem C8_validate_url_spec_witness :
    validate_url ([47, 97] ++ [0]) [47, 97].length = targetSpecValid [47, 97] ∧
    (256 ≤ 256 ∧ validate_url [47] 256 = false) ∧
    on_url_callback [47] 256 = none :=
  ⟨C8_validate_url_spec.1 [47, 97],
    ⟨by decide, C8_validate_url_spec.2.2.1 [47] 256 (by decide)⟩,
    C8_validate_url_spec.2.2.2 [47]⟩

/-! ## C1: the effective request-size ceiling of the read path -/

theorem reqPrefix_eq : reqPrefix =
    [71, 69, 84, 32, 47, 32, 72, 84, 84, 80, 47, 49, 46, 49,
     13, 10, 72, 97, 58, 32] := by
  decide

theorem reqPrefix_length : reqPrefix.length = 20 := by decide

theorem block8192_length : block8192.length = 8192 := by
  simp [block8192, reqPrefix_length, abRep_length]

theorem block4096_length : block4096.length = 4096 := by
  simp [block4096, reqPrefix_length, abRep_length]

theorem buf1_length : (reqPrefix ++ abRep 2038).length = 4096 := by
  simp [reqPrefix_length, abRep_length]

theorem block8192_take : block8192.take 4096 = reqPrefix ++ abRep 2038 := by
  unfold block8192
  rw [List.append_assoc, List.take_append_eq_append_take,
    List.take_of_length_le (by rw [reqPrefix_length]; omega), reqPrefix_length]
  have h1 : (4096 : Nat) - 20 = 4076 := by norm_num
  rw [h1, show (4084 : Nat) = 2038 + 2046 from rfl, abRep_add,
    List.append_assoc,
    show (4076 : Nat) = (abRep 2038).length from (by rw [abRep_length]),
    List.take_left]

theorem take256_buf1 : (reqPrefix ++ abRep 2038).take 256 =
    reqPrefix ++ abRep 118 := by
  rw [List.take_append_eq_append_take,
    List.take_of_length_le (by rw [reqPrefix_length]; omega), reqPrefix_length]
  have h1 : (256 : Nat) - 20 = 236 := by norm_num
  rw [h1, show (2038 : Nat) = 118 + 1920 from rfl, abRep_add,
    show (236 : Nat) = (abRep 118).length from (by rw [abRep_length]),
    List.take_left]

theorem take256_block4096 : block4096.take 256 = reqPrefix ++ abRep 118 := by
  unfold block4096
  rw [List.append_assoc, List.take_append_eq_append_take,
    List.take_of_length_le (by rw [reqPrefix_length]; omega), reqPrefix_length]
  have h1 : (256 : Nat) - 20 = 236 := by norm_num
  rw [h1, show (2036 : Nat) = 118 + 1918 from rfl, abRep_add,
    List.append_assoc,
    show (236 : Nat) = (abRep 118).length from (by rw [abRep_length]),
    List.take_left]

theorem repeatScan_front : repeatScan 0 (reqPrefix ++ abRep 118) = false := by
  rw [reqPrefix_eq]
  decide

theorem fhe_reqPrefix_tail (t : List Nat) (ht : ∀ b ∈ t, b ≠ 13) :
    simd_find_header_end (reqPrefix ++ t) = none := by
  have htail : simd_find_header_end (97 :: 58 :: 32 :: t) = none := by
    apply fhe_none_of_no13
    intro b hb
    simp only [List.mem_cons] at hb
    rcases hb with rfl | rfl | rfl | h
    · decide
    · decide
    · decide
    · exact ht b h
  rw [reqPrefix_eq]
  simp [simd_find_header_end, htail]

theorem fhe_buf1 : simd_find_header_end (reqPrefix ++ abRep 2038) = none :=
  fhe_reqPrefix_tail (abRep 2038) (abRep_ne13 2038)

theorem readStep1 : do_read_event readInit block8192 =
    ({ buf := reqPrefix ++ abRep 2038, closed := false, dispatched := false },
      4096) := by
  simp only [do_read_event, readInit, BUFFER_SIZE, MAX_REQUEST_SIZE,
    parserHeadersComplete, List.length_nil, Nat.sub_zero, List.nil_append,
    Bool.or_self, Bool.false_eq_true, if_false, block8192_take, buf1_length,
    take256_buf1, repeatScan_front, fhe_buf1, Option.isSome_none]
  norm_num

theorem readStep2 (b rest : List Nat) (hb : b.length = 4096) :
    do_read_event { buf := b, closed := false, dispatched := false } rest =
    ({ buf := b, closed := true, dispatched := false }, 0) := by
  simp only [do_read_event, BUFFER_SIZE, hb, Bool.or_self,
    Bool.false_eq_true, if_false]
  norm_num

theorem fhe_block4096 : (simd_find_header_end block4096).isSome = true := by
  unfold block4096
  exact fhe_isSome_of_suffix _ (List.suffix_append _ _)

theorem readStep4096 : do_read_event readInit block4096 =
    ({ buf := block4096, closed := false, dispatched := true }, 4096) := by
  have htake : block4096.take 4096 = block4096 :=
    List.take_of_length_le (by rw [block4096_length])
  simp only [do_read_event, readInit, BUFFER_SIZE, MAX_REQUEST_SIZE,
    parserHeadersComplete, List.length_nil, Nat.sub_zero, List.nil_append,
    Bool.or_self, Bool.false_eq_true, if_false, htake, block4096_length,
    take256_block4096, repeatScan_front, fhe_block4096]
  norm_num

theorem do_read_event_buf_le (s : RState) (avail : List Nat)
    (h : s.buf.length ≤ BUFFER_SIZE) :
    ((do_read_event s avail).1).buf.length ≤ BUFFER_SIZE := by
  unfold do_read_event
  split
  · exact h
  · split
    · exact h
    · have hlen : (s.buf ++ avail.take (BUFFER_SIZE - s.buf.length)).length ≤
          BUFFER_SIZE := by
        simp only [List.length_append, List.length_take]
        omega
      dsimp only
      split
      · exact hlen
      · split
        · exact hlen
        · split
          · exact hlen
          · split
            · exact hlen
            · exact hlen

theorem runRead_buf_le (events : Nat) (stream : List Nat) (s : RState)
    (h : s.buf.length ≤ BUFFER_SIZE) :
    (runRead s stream events).buf.length ≤ BUFFER_SIZE := by
  induction events generalizing s stream with
  | zero => exact h
  | succ n ih =>
      rw [runRead]
      exact ih _ _ (do_read_event_buf_le s stream h)

/-- C1 counterexample: a request whose header block is exactly 8192 bytes
ending in `\r\n\r\n` is not accepted but closed: the read buffer holds at
most `BUFFER_SIZE` = 4096 bytes and is never drained before the headers
complete, so the first readable event fills it with the first 4096 bytes
(no terminator among them), and the next event finds `space_left == 0` and
closes the connection (worker.c lines 178-183) without ever dispatching. -/
theorem C1_counterexample :
    block8192.length = 8192 ∧
    block8192 = (reqPrefix ++ abRep 4084) ++ [13, 10, 13, 10] ∧
    (runRead readInit block8192 2).closed = true ∧
    (runRead readInit block8192 2).dispatched = false := by
  have hrun : runRead readInit block8192 2 =
      { buf := reqPrefix ++ abRep 2038, closed := true,
        dispatched := false } := by
    rw [show (2 : Nat) = 1 + 1 from rfl, runRead, readStep1]
    show runRead
      { buf := reqPrefix ++ abRep 2038, closed := false, dispatched := false }
      (block8192.drop 4096) 1 = _
    rw [show (1 : Nat) = 0 + 1 from rfl, runRead,
      readStep2 _ _ buf1_length]
    rfl
  refine ⟨block8192_length, ?_, ?_, ?_⟩
  · unfold block8192
    rw [List.append_assoc]
  · rw [hrun]
  · rw [hrun]

/-- C1 amended: the ceiling the read path actually enforces is
`BUFFER_SIZE` = 4096, not 8192: the read buffer never holds more than 4096
bytes (first conjunct, for every stream and any number of read events), a
4096-byte header block ending in `\r\n\r\n` is accepted and dispatched
(remaining conjuncts), and — per the counterexample — any block needing
more than 4096 buffered bytes, including one of exactly 8192, is rejected
by close, making the `MAX_REQUEST_SIZE` = 8192 comparisons unreachable. -/
theorem C1_amended :
    (∀ (events : Nat) (stream : List Nat),
      (runRead readInit stream events).buf.length ≤ BUFFER_SIZE) ∧
    block4096.length = BUFFER_SIZE ∧
    block4096 = (reqPrefix ++ abRep 2036) ++ [13, 10, 13, 10] ∧
    (runRead readInit block4096 1).dispatched = true ∧
    (runRead readInit block4096 1).closed = false := by
  have hrun : runRead readInit block4096 1 =
      { buf := block4096, closed := false, dispatched := true } := by
    rw [show (1 : Nat) = 0 + 1 from rfl, runRead, readStep4096]
    rfl
  refine ⟨?_, block4096_length, ?_, ?_, ?_⟩
  · intro events stream
    exact runRead_buf_le events stream readInit (by simp [readInit])
  · unfold block4096
    rw [List.append_assoc]
  · rw [hrun]
  · rw [hrun]

end BFF
